import Mathlib

/-!
Verification of the `getrandom` crate core against its specification.

The definitions below are shallow embeddings of the Rust sources:
machine integers become `Int`/`Nat`, fallible code returns `Option`
or an explicit result type, and in-place mutation becomes explicit
state passing.  Every definition is translated from the repository
sources (file and function named in its doc comment), except where a
doc comment explicitly says it is modelled from the spec.
-/

namespace Getrandom

/-! ## Error model, from `src/error.rs` (non-UEFI configuration)

On non-UEFI targets `RawOsError` is `i32`; OS errors are represented
as negative integers, internal errors live in `[2^16, 2^17)` and
custom errors in `[2^17, 2^17 + 2^16)`.  The embedding carries the
`i32` payload as an `Int`.
-/

/-- The value of `i32::MIN`, relevant because `raw_os_error` uses
`checked_neg`. -/
def I32_MIN : Int := -(2 ^ 31)

/-- `struct Error(NonZeroRawOsError)` from `src/error.rs`.  The
nonzero invariant is maintained by the constructors below and is not
needed for the stated properties, so the payload is a plain `Int`. -/
structure Error where
  code : Int
deriving DecidableEq, Repr

/-- `Error::INTERNAL_START2`: internal errors start at `1 << 16`. -/
def INTERNAL_START2 : Int := 2 ^ 16

/-- `Error::CUSTOM_START2`: custom errors start at `1 << 17`. -/
def CUSTOM_START2 : Int := 2 ^ 17

/-- `Error::new_internal(n: u16)`: `INTERNAL_START2 + n`.  The `u16`
domain is reflected by the hypothesis `n < 2^16` in the theorems. -/
def Error.new_internal (n : Nat) : Error := ⟨INTERNAL_START2 + n⟩

/-- `Error::new_custom(n: u16)`: `CUSTOM_START2 + n`. -/
def Error.new_custom (n : Nat) : Error := ⟨CUSTOM_START2 + n⟩

/-- `Error::UNSUPPORTED = Self::new_internal(0)`. -/
def Error.UNSUPPORTED : Error := Error.new_internal 0

/-- `Error::ERRNO_NOT_POSITIVE = Self::new_internal(1)`. -/
def Error.ERRNO_NOT_POSITIVE : Error := Error.new_internal 1

/-- `Error::UNEXPECTED = Self::new_internal(2)`. -/
def Error.UNEXPECTED : Error := Error.new_internal 2

/-- `Error::from_os_error(code)` from `src/error.rs`: keeps the code
verbatim when it is a negative (hence nonzero) `i32`, otherwise
degrades to `Error::UNEXPECTED`. -/
def Error.from_os_error (code : Int) : Error :=
  if code < 0 then ⟨code⟩ else Error.UNEXPECTED

/-- `Error::raw_os_error()` from `src/error.rs` (non-UEFI, non-SOLID):
nonnegative codes are not OS errors; a negative code is negated with
`checked_neg`, which fails exactly at `i32::MIN`. -/
def Error.raw_os_error (e : Error) : Option Int :=
  if 0 ≤ e.code then none
  else if e.code = I32_MIN then none
  else some (-e.code)

/-- Modelled from the spec: `Error::from_errno` is called by
`src/utils/sys_fill_exact.rs` and `src/backends/getentropy.rs` but its
definition is not present under `src/`.  Per the spec error model
(Construct-from-OS-errno stores the errno verbatim in the OS range and
`raw_os_error()` returns the errno only if in the OS range) and per the
convention stated in `src/error.rs` that OS errors are represented as
negative integers, a positive errno is negated and stored through
`from_os_error`. -/
def Error.from_errno (errno : Int) : Error := Error.from_os_error (-errno)

/-- `last_os_error()` from `src/util_libc.rs`, parametrized by the
current errno value: a positive errno becomes an OS error carrying that
errno, a non-positive errno becomes `Error::ERRNO_NOT_POSITIVE`. -/
def last_os_error (errno : Int) : Error :=
  if 0 < errno then Error.from_errno errno else Error.ERRNO_NOT_POSITIVE

/-! ## Linux errno constants used by the sources -/

/-- `libc::EPERM` on Linux and Android. -/
def EPERM : Int := 1

/-- `libc::EINTR` on Linux and Android. -/
def EINTR : Int := 4

/-- `libc::EAGAIN` on Linux and Android. -/
def EAGAIN : Int := 11

/-- `libc::ENOSYS` on Linux and Android. -/
def ENOSYS : Int := 38

/-! ## Exact-fill retry loop, from `src/utils/sys_fill_exact.rs`
(equivalently `sys_fill_exact` in `src/util_libc.rs`)

The destination buffer is represented by its remaining length; the
`sys_fill` closure is an arbitrary state machine that receives the
remaining length (the unwritten suffix handed to it) and returns the
`ssize_t` result, the errno to be read after a `-1` result, and its
next state.  The Rust `while` loop may run forever (for example under
unbounded interruption), so the embedding takes a fuel bound and
returns `none` when the fuel is exhausted before the loop exits.  On
exit it returns the loop result together with the number of attempt
calls made and the list of successful chunk sizes, in order.
-/

/-- Result of the loop body: `Ok(())` or `Err(e)`. -/
inductive FillRes
  | ok
  | fail (e : Error)
deriving DecidableEq, Repr

/-- `sys_fill_exact(buf, sys_fill)`:
while the buffer is non-empty, call `sys_fill` on the remaining
suffix; a positive result within bounds advances the cursor
(`split_at_mut_checked`), a result larger than the remainder is
`Error::UNEXPECTED`, `-1` with errno `EINTR` retries without progress,
`-1` with another errno returns `Error::from_errno(errno)`, and any
other result (zero or a negative value other than `-1`) is
`Error::UNEXPECTED`. -/
def sys_fill_exact {σ : Type} (sysFill : σ → Nat → (Int × Int) × σ) :
    (fuel len : Nat) → σ → Option (FillRes × Nat × List Nat)
  | _, 0, _ => some (FillRes.ok, 0, [])
  | 0, _ + 1, _ => none
  | fuel + 1, len + 1, s =>
    let st := sysFill s (len + 1)
    let res := st.1.1
    if 0 < res then
      if res.toNat ≤ len + 1 then
        match sys_fill_exact sysFill fuel (len + 1 - res.toNat) st.2 with
        | some (r, n, cs) => some (r, n + 1, res.toNat :: cs)
        | none => none
      else some (FillRes.fail Error.UNEXPECTED, 1, [])
    else if res = -1 then
      if st.1.2 = EINTR then
        match sys_fill_exact sysFill fuel (len + 1) st.2 with
        | some (r, n, cs) => some (r, n + 1, cs)
        | none => none
      else some (FillRes.fail (Error.from_errno st.1.2), 1, [])
    else some (FillRes.fail Error.UNEXPECTED, 1, [])

/-- Mock attempt primitive for the chunking test: always reports
`min 3 remaining` bytes written, with no internal state. -/
def mock3 : Unit → Nat → (Int × Int) × Unit :=
  fun _ rem => ((Int.ofNat (min 3 rem), 0), ())

/-- Mock attempt primitive that fails with `EINTR` while its counter
state is positive, then reports the whole remaining buffer written. -/
def eintrThenFull : Nat → Nat → (Int × Int) × Nat :=
  fun k rem => if k = 0 then ((Int.ofNat rem, 0), 0) else ((-1, EINTR), k - 1)

/-- Mock attempt primitive reporting success with zero bytes written. -/
def zeroMock : Unit → Nat → (Int × Int) × Unit := fun _ _ => ((0, 0), ())

/-- Mock attempt primitive reporting seven bytes written regardless of
the remaining length. -/
def sevenMock : Unit → Nat → (Int × Int) × Unit := fun _ _ => ((7, 0), ())

/-- Mock attempt primitive that always fails with errno `EPERM`. -/
def epermMock : Unit → Nat → (Int × Int) × Unit := fun _ _ => ((-1, EPERM), ())

/-! ## Public entry points, from `src/lib.rs`

A possibly-uninitialized buffer is a list of `Option Nat` (a `none`
entry is an uninitialized byte).  The selected backend
(`imp::getrandom_inner`) mutates the buffer in place and returns
`Result<(), Error>`; the embedding passes the buffer explicitly, so a
backend is a function from the buffer to `Except Error` of the new
buffer contents.  Each entry point also returns the number of backend
invocations it performed (each OS call happens inside the backend, so
zero backend invocations means zero OS calls). -/

/-- The backend trust boundary stated by the spec: on reported success
the backend has fully initialized the buffer, preserving its length. -/
def BackendContract (backend : List (Option Nat) → Except Error (List (Option Nat))) :
    Prop :=
  ∀ d d2, backend d = Except.ok d2 → d2.length = d.length ∧ ∀ x ∈ d2, x.isSome = true

/-- `getrandom_uninit(dest)` from `src/lib.rs`: if `dest` is not empty,
delegate to `imp::getrandom_inner` and propagate its error; then view
the buffer as initialized (`slice_assume_init_mut`, the identity in
this model) and return it.  The second component counts backend
invocations. -/
def getrandom_uninit (backend : List (Option Nat) → Except Error (List (Option Nat)))
    (dest : List (Option Nat)) : Except Error (List (Option Nat)) × Nat :=
  if dest.isEmpty then (Except.ok dest, 0)
  else
    match backend dest with
    | Except.error e => (Except.error e, 1)
    | Except.ok d2 => (Except.ok d2, 1)

/-- `getrandom(dest)` from `src/lib.rs`: view the initialized slice as
a write target (`slice_as_uninit_mut`, mapping each byte to `some`),
delegate to `getrandom_uninit`, and discard the returned view. -/
def getrandom (backend : List (Option Nat) → Except Error (List (Option Nat)))
    (dest : List Nat) : Except Error Unit × Nat :=
  match getrandom_uninit backend (dest.map some) with
  | (Except.ok _, n) => (Except.ok (), n)
  | (Except.error e, n) => (Except.error e, n)

/-! ## Capability probe, from `is_getrandom_good` in
`src/backends/linux_android_with_fallback.rs` (equivalently
`is_getrandom_available` in `src/linux_android_with_fallback.rs`)

The probe calls the `getrandom` function with a zero-length request;
the embedding receives the result of that call and the errno it set.
The `target_os` conditional compilation is reflected by an explicit
`OS` parameter, and the test-only `getrandom_test_linux_fallback`
configuration is not modelled (it is compiled out of release builds).
-/

/-- The two operating systems this backend is compiled for. -/
inductive OS
  | linux
  | android
deriving DecidableEq, Repr

/-- `is_getrandom_good`: a non-negative probe result is good; on a
negative result the errno (read through `last_os_error().raw_os_error()`)
decides: `ENOSYS` is bad, `EPERM` is bad only on Linux, anything else
is good. -/
def is_getrandom_good (os : OS) (res errno : Int) : Bool :=
  if ¬ res < 0 then true
  else
    match (last_os_error errno).raw_os_error with
    | some e =>
      if e = ENOSYS then false
      else if e = EPERM ∧ os = OS.linux then false
      else true
    | none => true

/-! ## Lazy one-shot caches, from `src/lazy.rs` and
`src/utils/lazy_bool.rs`

The atomic cell is modelled by explicit state passing: each operation
receives the current cell value and returns the value given to the
caller, the new cell value, and whether the `init` closure ran.  The
`usize` cell of `LazyUsize` is modelled on a 64-bit target. -/

/-- `usize::MAX` on a 64-bit target. -/
def USIZE_MAX : Nat := 2 ^ 64 - 1

namespace LazyUsize

/-- `LazyUsize::UNINIT = usize::MAX`. -/
def UNINIT : Nat := USIZE_MAX

/-- `LazyUsize::unsync_init`: return the cached value when it is not
the sentinel; otherwise run `init` and store its result
unconditionally (also when that result is the sentinel itself). -/
def unsync_init (cache : Nat) (init : Unit → Nat) : Nat × Nat × Bool :=
  if cache ≠ UNINIT then (cache, cache, false)
  else
    let v := init ()
    (v, v, true)

end LazyUsize

namespace LazyBoolWord

/-- `LazyBool::unsync_init` from `src/lazy.rs`: a `LazyUsize` storing
`usize::from(bool)` and comparing the result against zero. -/
def unsync_init (cache : Nat) (init : Unit → Bool) : Bool × Nat × Bool :=
  let r := LazyUsize.unsync_init cache (fun u => if init u then 1 else 0)
  (r.1 ≠ 0, r.2.1, r.2.2)

end LazyBoolWord

/-- `u8::MAX`, the `UNINIT` sentinel of `LazyBool` in
`src/utils/lazy_bool.rs`. -/
def U8_MAX : Nat := 255

namespace LazyBool8

/-- `LazyBool::UNINIT = u8::MAX` from `src/utils/lazy_bool.rs`. -/
def UNINIT : Nat := U8_MAX

/-- `LazyBool::unsync_init` from `src/utils/lazy_bool.rs`: on the
sentinel, run `init`, store `u8::from(init())` and return it compared
against zero; otherwise return the cached byte compared against
zero. -/
def unsync_init (cache : Nat) (init : Unit → Bool) : Bool × Nat × Bool :=
  if cache = UNINIT then
    let v := if init () then 1 else 0
    (v ≠ 0, v, true)
  else (cache ≠ 0, cache, false)

end LazyBool8

/-! ## Backend selection, from `getrandom_inner` in
`src/linux_android_with_fallback.rs`

`HAS_GETRANDOM` is a `LazyBool` (from `src/lazy.rs`); on `true` the
call is served by `sys_fill_exact(dest, getrandom_syscall)`, on
`false` by `use_file::getrandom_inner(dest)`.  The two backend fills
are abstracted by their results on the given buffer, and the cache
cell is passed explicitly. -/

/-- `getrandom_inner(dest)`: probe-once dispatch between the fast
syscall fill and the file fallback fill.  Returns the fill result, the
new cache value, and whether the probe ran during this call. -/
def getrandom_inner (cache : Nat) (probe : Unit → Bool)
    (fastFill fileFill : Except Error Unit) : Except Error Unit × Nat × Bool :=
  let r := LazyBoolWord.unsync_init cache probe
  ((if r.1 then fastFill else fileFill), r.2.1, r.2.2)

/-- `NOT_AVAILABLE` from `fill_inner` in
`src/backends/linux_android_with_fallback.rs`: the dlsym-based backend
encodes the absence of `getrandom` as `usize::MAX`. -/
def NOT_AVAILABLE : Nat := USIZE_MAX

/-- The cache update performed by `fill_inner` in
`src/backends/linux_android_with_fallback.rs` on the dynamic-linking
path: `GETRANDOM_FN.unsync_init(|| init().unwrap_or(NOT_AVAILABLE))`,
where `init()` returns the probed function address on success and
`None` when `getrandom` is unavailable. -/
def fill_inner_cache_step (cache : Nat) (probeAddr : Unit → Option Nat) :
    Nat × Nat × Bool :=
  LazyUsize.unsync_init cache (fun u => (probeAddr u).getD NOT_AVAILABLE)

/-! ## File-descriptor fallback, from `get_rng_fd` in
`src/use_file.rs`

The process-wide `FD` cell is passed explicitly (`FD_UNINIT = -1`).
One call interacts with the environment through the outcome of the
one-time readiness poll of `/dev/random` (`wait_until_rng_ready`,
which polls that descriptor and never reads from it) and the outcome
of `File::open("/dev/urandom")`.  Each call returns its result, the
new `FD` cell value, and the ordered list of observable events it
performed.  The mutex of `get_fd_locked` serializes the slow path, so
a sequence of calls is modelled by running them one after another. -/

/-- Observable events of one `get_rng_fd` call.  `closeUrandom` is
never emitted by the source, and is included so that its absence can
be stated. -/
inductive Ev
  | lock
  | pollRandom
  | openUrandom (success : Bool)
  | closeUrandom
deriving DecidableEq, Repr

/-- Environment responses consumed by one `get_rng_fd` call: the
result of the readiness poll and the result of opening the fallback
device (`Except.ok fd` carries the new descriptor). -/
structure Env where
  pollResult : Except Error Unit
  openResult : Except Error Int

/-- `FD_UNINIT`: the sentinel stored in the `FD` cell. -/
def FD_UNINIT : Int := -1

/-- `get_fd()` from `src/use_file.rs`: read the cached descriptor. -/
def get_fd (fd : Int) : Option Int :=
  if fd = FD_UNINIT then none else some fd

/-- `get_fd_locked()` from `src/use_file.rs`: under the mutex,
re-check the cell; if still unset, run the readiness poll and, only on
its success, open `/dev/urandom` and publish the descriptor. -/
def get_fd_locked (env : Env) (fd : Int) : Except Error Int × Int × List Ev :=
  match get_fd fd with
  | some f => (Except.ok f, fd, [Ev.lock])
  | none =>
    match env.pollResult with
    | Except.error e => (Except.error e, fd, [Ev.lock, Ev.pollRandom])
    | Except.ok _ =>
      match env.openResult with
      | Except.error e =>
        (Except.error e, fd, [Ev.lock, Ev.pollRandom, Ev.openUrandom false])
      | Except.ok f =>
        (Except.ok f, f, [Ev.lock, Ev.pollRandom, Ev.openUrandom true])

/-- `get_rng_fd()` from `src/use_file.rs`: double-checked fast path,
falling back to the locked slow path. -/
def get_rng_fd (env : Env) (fd : Int) : Except Error Int × Int × List Ev :=
  match get_fd fd with
  | some f => (Except.ok f, fd, [])
  | none => get_fd_locked env fd

/-- A sequence of `get_rng_fd` calls, threading the `FD` cell and
concatenating the event logs. -/
def run_get_rng_fd : List Env → Int → Int × List Ev
  | [], fd => (fd, [])
  | env :: rest, fd =>
    let r := get_rng_fd env fd
    let rr := run_get_rng_fd rest r.2.1
    (rr.1, r.2.2 ++ rr.2)

/-- A well-formed environment: `File::open` never returns the invalid
descriptor `-1` (guaranteed by `std::os::fd::OwnedFd`, and asserted by
`debug_assert!(fd != FD_UNINIT)` in the source). -/
def EnvValid (env : Env) : Prop :=
  ∀ f, env.openResult = Except.ok f → f ≠ FD_UNINIT

/-- Number of successful opens of `/dev/urandom` in an event log. -/
def countOpens (evs : List Ev) : Nat :=
  (evs.filter (fun e => e = Ev.openUrandom true)).length

/-! ## Readiness poll loop, from `wait_until_rng_ready` in
`src/use_file.rs` (equivalently in
`src/linux_android_with_fallback.rs`)

Each iteration polls `/dev/random`; the environment supplies the list
of successive `(poll result, errno)` pairs.  A non-negative poll
result returns `Ok`; a failure is retried when
`last_os_error().raw_os_error()` is `Some(EINTR)` or `Some(EAGAIN)`
and surfaced unchanged otherwise.  An exhausted list (`none`) stands
for the loop still blocking. -/

/-- The poll loop of `wait_until_rng_ready`. -/
def wait_until_rng_ready : List (Int × Int) → Option (Except Error Unit)
  | [] => none
  | (res, errno) :: rest =>
    if 0 ≤ res then some (Except.ok ())
    else
      let err := last_os_error errno
      match err.raw_os_error with
      | some e =>
        if e = EINTR ∨ e = EAGAIN then wait_until_rng_ready rest
        else some (Except.error err)
      | none => some (Except.error err)

/-! ## Theorems about the exact-fill loop -/

/-- Whenever the loop exits with `Ok`, the successful chunks written by
the attempt calls sum to the whole original buffer length. -/
theorem sys_fill_exact_ok_sum {σ : Type} (f : σ → Nat → (Int × Int) × σ) :
    ∀ (fuel len : Nat) (s : σ) (n : Nat) (cs : List Nat),
      sys_fill_exact f fuel len s = some (FillRes.ok, n, cs) → cs.sum = len := by
  intro fuel
  induction fuel with
  | zero =>
    intro len s n cs h
    match len with
    | 0 =>
      simp [sys_fill_exact] at h
      simp [h.2]
    | len + 1 => simp [sys_fill_exact] at h
  | succ fuel ih =>
    intro len s n cs h
    match len with
    | 0 =>
      simp [sys_fill_exact] at h
      simp [h.2]
    | len + 1 =>
      simp only [sys_fill_exact] at h
      split at h
      · split at h
        · split at h
          · rename_i r n2 cs2 heq
            rw [Option.some_inj] at h
            obtain ⟨h1, h2, h3⟩ := Prod.mk.injEq .. ▸ congrArg id h
            · cases h
              have := ih _ _ _ _ heq
              rename_i hle _
              simp only [List.sum_cons, this]
              omega
          · cases h
        · cases h
      · split at h
        · split at h
          · split at h
            · rename_i r n2 cs2 heq
              cases h
              exact ih _ _ _ _ heq
            · cases h
          · cases h
        · cases h

/-- Claim C1: for every non-empty destination buffer, `sys_fill_exact`
returns `Ok` only after its attempt calls have together written every
byte of the buffer (the successful chunk sizes sum to the buffer
length, each attempt receiving the suffix left by the previous ones);
in particular the mock attempt writing `min 3 remaining` bytes fills a
10-byte request in exactly 4 attempts of sizes 3, 3, 3, 1. -/
theorem claim_C1_exact_fill_chunking :
    (∀ (σ : Type) (f : σ → Nat → (Int × Int) × σ) (fuel len : Nat) (s : σ)
        (n : Nat) (cs : List Nat),
        sys_fill_exact f fuel len s = some (FillRes.ok, n, cs) → cs.sum = len)
    ∧ sys_fill_exact mock3 10 10 () = some (FillRes.ok, 4, [3, 3, 3, 1]) := by
  refine ⟨fun σ f fuel len s n cs h => sys_fill_exact_ok_sum f fuel len s n cs h, ?_⟩
  decide

/-- Witness for C1 at the concrete 10-byte mock run. -/
theorem claim_C1_exact_fill_chunking_witness : ([3, 3, 3, 1] : List Nat).sum = 10 :=
  claim_C1_exact_fill_chunking.1 Unit mock3 10 10 () 4 [3, 3, 3, 1] (by decide)

/-- Claim C3: interruptions (`EINTR`) are absorbed: an attempt that
fails `k` times with `EINTR` and then writes the whole remaining
buffer makes the loop return `Ok` after `k + 1` attempts, the single
successful chunk covering the entire buffer (so no progress was
accounted during the interruptions); the first failure with any errno
other than `EINTR` is returned immediately, as the error built from
that errno, after a single attempt. -/
theorem claim_C3_eintr_absorbed_other_errno_surfaced :
    (∀ (k len extra : Nat), 0 < len →
        sys_fill_exact eintrThenFull (k + 1 + extra) len k
          = some (FillRes.ok, k + 1, [len]))
    ∧ (∀ (σ : Type) (f : σ → Nat → (Int × Int) × σ) (s : σ) (len fuel : Nat)
        (errno : Int), 0 < len → (f s len).1 = (-1, errno) → errno ≠ EINTR →
        sys_fill_exact f (fuel + 1) len s
          = some (FillRes.fail (Error.from_errno errno), 1, [])) := by
  constructor
  · intro k
    induction k with
    | zero =>
      intro len extra hlen
      match len, hlen with
      | len + 1, _ =>
        have h1 : 0 + 1 + extra = extra + 1 := by omega
        rw [h1]
        simp [sys_fill_exact, eintrThenFull]
    | succ k ih =>
      intro len extra hlen
      match len, hlen with
      | len + 1, _ =>
        have hrec := ih (len + 1) extra (Nat.succ_pos len)
        have hst : eintrThenFull (k + 1) (len + 1) = ((-1, EINTR), k) := by
          simp [eintrThenFull]
        have hfuel : k + 1 + 1 + extra = (k + 1 + extra) + 1 := by omega
        rw [hfuel]
        simp only [sys_fill_exact, hst]
        norm_num [hrec]
  · intro σ f s len fuel errno hlen hf hne
    match len, hlen with
    | len + 1, _ =>
      simp [sys_fill_exact, hf, hne]

/-- Witness for C3: two interruptions then a full 8-byte write return
`Ok` in 3 attempts; a first failure with `EPERM` surfaces at once. -/
theorem claim_C3_eintr_absorbed_other_errno_surfaced_witness :
    sys_fill_exact eintrThenFull 5 8 2 = some (FillRes.ok, 3, [8])
    ∧ sys_fill_exact epermMock 4 5 ()
        = some (FillRes.fail (Error.from_errno EPERM), 1, []) :=
  ⟨claim_C3_eintr_absorbed_other_errno_surfaced.1 2 8 2 (by decide),
   claim_C3_eintr_absorbed_other_errno_surfaced.2 Unit epermMock () 5 3 EPERM
     (by decide) rfl (by decide)⟩

/-- Claim C4: on a non-empty remaining buffer, an attempt reporting
success with zero bytes written makes `sys_fill_exact` return
`Err(Error::UNEXPECTED)` after that single attempt; likewise an
attempt reporting more bytes written than remain in the buffer. -/
theorem claim_C4_spurious_eof_and_overlong_write :
    (∀ (σ : Type) (f : σ → Nat → (Int × Int) × σ) (s : σ) (len fuel : Nat),
        0 < len → (f s len).1.1 = 0 →
        sys_fill_exact f (fuel + 1) len s
          = some (FillRes.fail Error.UNEXPECTED, 1, []))
    ∧ (∀ (σ : Type) (f : σ → Nat → (Int × Int) × σ) (s : σ) (len fuel : Nat),
        0 < len → (len : Int) < (f s len).1.1 →
        sys_fill_exact f (fuel + 1) len s
          = some (FillRes.fail Error.UNEXPECTED, 1, [])) := by
  constructor
  · intro σ f s len fuel hlen hf
    match len, hlen with
    | len + 1, _ =>
      simp [sys_fill_exact, hf]
  · intro σ f s len fuel hlen hf
    match len, hlen with
    | len + 1, _ =>
      have h0 : (0 : Int) < (f s (len + 1)).1.1 := by omega
      have hgt : ¬ (f s (len + 1)).1.1.toNat ≤ len + 1 := by omega
      simp [sys_fill_exact, h0, hgt]

/-- Witness for C4: a zero-byte success and a 7-byte report on a
5-byte buffer both yield `Error::UNEXPECTED` in one attempt. -/
theorem claim_C4_spurious_eof_and_overlong_write_witness :
    sys_fill_exact zeroMock 1 5 () = some (FillRes.fail Error.UNEXPECTED, 1, [])
    ∧ sys_fill_exact sevenMock 1 5 ()
        = some (FillRes.fail Error.UNEXPECTED, 1, []) :=
  ⟨claim_C4_spurious_eof_and_overlong_write.1 Unit zeroMock () 5 0 (by decide) rfl,
   claim_C4_spurious_eof_and_overlong_write.2 Unit sevenMock () 5 0 (by decide)
     (by decide)⟩

/-! ## Theorems about the error model and the probe -/

/-- `last_os_error(errno).raw_os_error()` recovers exactly the
positive errnos (except the unrepresentable `2^31`, where
`checked_neg` fails). -/
theorem last_os_error_raw_os_error (errno : Int) :
    (last_os_error errno).raw_os_error =
      if 0 < errno ∧ errno ≠ 2 ^ 31 then some errno else none := by
  simp only [last_os_error, Error.from_errno, Error.from_os_error,
    Error.raw_os_error, Error.ERRNO_NOT_POSITIVE, Error.new_internal,
    INTERNAL_START2, I32_MIN]
  split_ifs <;> first | rfl | (simp_all; omega) | simp_all

/-- Claim C8: the error encoding is recoverable from the value alone:
an error constructed from a positive OS errno reports that errno
through `raw_os_error()` (in particular errno 2), while internal
errors (such as `UNSUPPORTED`, built by `new_internal`) and custom
errors (built by `new_custom`) occupy the disjoint reserved ranges
`[2^16, 2^17)` and `[2^17, 2^17 + 2^16)` — outside the negative OS
range — and report `raw_os_error() == None`. -/
theorem claim_C8_error_ranges :
    (∀ e : Int, 0 < e → e < 2 ^ 31 → (Error.from_errno e).raw_os_error = some e)
    ∧ (Error.from_errno 2).raw_os_error = some 2
    ∧ Error.UNSUPPORTED.raw_os_error = none
    ∧ (∀ n : Nat, n < 2 ^ 16 →
        (Error.new_internal n).raw_os_error = none
        ∧ INTERNAL_START2 ≤ (Error.new_internal n).code
        ∧ (Error.new_internal n).code < CUSTOM_START2)
    ∧ (∀ n : Nat, n < 2 ^ 16 →
        (Error.new_custom n).raw_os_error = none
        ∧ CUSTOM_START2 ≤ (Error.new_custom n).code
        ∧ (Error.new_custom n).code < CUSTOM_START2 + 2 ^ 16)
    ∧ (∀ m n : Nat, m < 2 ^ 16 → n < 2 ^ 16 →
        Error.new_internal m ≠ Error.new_custom n) := by
  refine ⟨?_, by decide, by decide, ?_, ?_, ?_⟩
  · intro e h0 h31
    have h := last_os_error_raw_os_error e
    rw [last_os_error, if_pos h0] at h
    rw [h, if_pos ⟨h0, by omega⟩]
  · intro n hn
    refine ⟨?_, ?_, ?_⟩
    · simp only [Error.new_internal, Error.raw_os_error, INTERNAL_START2]
      rw [if_pos (by omega)]
    · show INTERNAL_START2 ≤ INTERNAL_START2 + (n : Int)
      omega
    · show INTERNAL_START2 + (n : Int) < CUSTOM_START2
      simp only [INTERNAL_START2, CUSTOM_START2]
      omega
  · intro n hn
    refine ⟨?_, ?_, ?_⟩
    · simp only [Error.new_custom, Error.raw_os_error, CUSTOM_START2]
      rw [if_pos (by omega)]
    · show CUSTOM_START2 ≤ CUSTOM_START2 + (n : Int)
      omega
    · show CUSTOM_START2 + (n : Int) < CUSTOM_START2 + 2 ^ 16
      omega
  · intro m n hm hn h
    have : INTERNAL_START2 + (m : Int) = CUSTOM_START2 + (n : Int) := by
      simpa [Error.new_internal, Error.new_custom, Error.mk.injEq] using h
    simp only [INTERNAL_START2, CUSTOM_START2] at this
    omega

/-- Witness for C8 at errno 2 and concrete internal and custom codes. -/
theorem claim_C8_error_ranges_witness :
    (Error.from_errno 2).raw_os_error = some 2
    ∧ (Error.new_internal 0).raw_os_error = none
    ∧ Error.new_internal 5 ≠ Error.new_custom 5 :=
  ⟨claim_C8_error_ranges.1 2 (by decide) (by decide),
   (claim_C8_error_ranges.2.2.2.1 0 (by decide)).1,
   claim_C8_error_ranges.2.2.2.2.2 5 5 (by decide) (by decide)⟩

/-- Claim C2: the public entry points succeed immediately on an empty
buffer with zero backend invocations (hence zero OS calls); on a
non-empty buffer they invoke the backend once and either return its
error or, under the backend contract, return success with the buffer
fully initialized at its original length. -/
theorem claim_C2_entry_points_contract :
    (∀ backend, getrandom_uninit backend [] = (Except.ok [], 0))
    ∧ (∀ backend, getrandom backend [] = (Except.ok (), 0))
    ∧ (∀ backend dest, BackendContract backend → dest ≠ [] →
        (∃ e, getrandom_uninit backend dest = (Except.error e, 1))
        ∨ (∃ d2, getrandom_uninit backend dest = (Except.ok d2, 1)
            ∧ d2.length = dest.length ∧ ∀ x ∈ d2, x.isSome = true))
    ∧ (∀ backend dest, dest ≠ [] →
        (∃ e, getrandom backend dest = (Except.error e, 1))
        ∨ getrandom backend dest = (Except.ok (), 1)) := by
  refine ⟨?_, ?_, ?_, ?_⟩
  · intro backend
    simp [getrandom_uninit]
  · intro backend
    simp [getrandom, getrandom_uninit]
  · intro backend dest hc hne
    have hemp : dest.isEmpty = false := by
      simpa [List.isEmpty_iff] using hne
    cases hb : backend dest with
    | error e =>
      exact Or.inl ⟨e, by simp [getrandom_uninit, hemp, hb]⟩
    | ok d2 =>
      obtain ⟨hlen, hinit⟩ := hc dest d2 hb
      exact Or.inr ⟨d2, by simp [getrandom_uninit, hemp, hb], hlen, hinit⟩
  · intro backend dest hne
    have hemp : (dest.map some).isEmpty = false := by
      simpa [List.isEmpty_iff] using hne
    cases hb : backend (dest.map some) with
    | error e =>
      exact Or.inl ⟨e, by simp [getrandom, getrandom_uninit, hemp, hb]⟩
    | ok d2 =>
      exact Or.inr (by simp [getrandom, getrandom_uninit, hemp, hb])

/-- Backend used by the C2 witness: replaces the buffer with zeros. -/
def backendZeros : List (Option Nat) → Except Error (List (Option Nat)) :=
  fun d => Except.ok (List.replicate d.length (some 0))

/-- The witness backend satisfies the backend contract. -/
theorem backendZeros_contract : BackendContract backendZeros := by
  intro d d2 h
  simp only [backendZeros, Except.ok.injEq] at h
  subst h
  constructor
  · simp
  · intro x hx
    have := List.eq_of_mem_replicate hx
    simp [this]

/-- Witness for C2 on a one-byte uninitialized buffer. -/
theorem claim_C2_entry_points_contract_witness :
    (∃ e, getrandom_uninit backendZeros [none] = (Except.error e, 1))
    ∨ (∃ d2, getrandom_uninit backendZeros [none] = (Except.ok d2, 1)
        ∧ d2.length = ([none] : List (Option Nat)).length
        ∧ ∀ x ∈ d2, x.isSome = true) :=
  claim_C2_entry_points_contract.2.2.1 backendZeros [none] backendZeros_contract
    (by decide)

/-- Claim C5: the Linux/Android capability probe interprets a
non-negative zero-length `getrandom` result as available; a negative
result is available unless the errno is `ENOSYS` (unavailable on both
systems) or `EPERM` (unavailable on Linux, available on Android). -/
theorem claim_C5_probe_decision :
    (∀ os res errno, 0 ≤ res → is_getrandom_good os res errno = true)
    ∧ (∀ os res errno, res < 0 → errno ≠ ENOSYS → errno ≠ EPERM →
        is_getrandom_good os res errno = true)
    ∧ (∀ os res, res < 0 → is_getrandom_good os res ENOSYS = false)
    ∧ (∀ res, res < 0 → is_getrandom_good OS.linux res EPERM = false)
    ∧ (∀ res, res < 0 → is_getrandom_good OS.android res EPERM = true) := by
  refine ⟨?_, ?_, ?_, ?_, ?_⟩
  · intro os res errno hres
    simp [is_getrandom_good, not_lt.mpr hres]
  · intro os res errno hres h38 h1
    simp only [is_getrandom_good, last_os_error_raw_os_error]
    rw [if_neg (by omega : ¬ ¬ res < 0)]
    by_cases hc : 0 < errno ∧ errno ≠ 2 ^ 31
    · rw [if_pos hc]
      simp only [ENOSYS, EPERM] at h38 h1
      simp [ENOSYS, EPERM, h38, h1]
    · rw [if_neg hc]
  · intro os res hres
    simp only [is_getrandom_good]
    rw [if_neg (by omega : ¬ ¬ res < 0)]
    rfl
  · intro res hres
    simp only [is_getrandom_good]
    rw [if_neg (by omega : ¬ ¬ res < 0)]
    rfl
  · intro res hres
    simp only [is_getrandom_good]
    rw [if_neg (by omega : ¬ ¬ res < 0)]
    rfl

/-- Witness for C5 at concrete probe outcomes. -/
theorem claim_C5_probe_decision_witness :
    is_getrandom_good OS.linux 0 0 = true
    ∧ is_getrandom_good OS.android (-1) EAGAIN = true
    ∧ is_getrandom_good OS.linux (-1) ENOSYS = false
    ∧ is_getrandom_good OS.linux (-1) EPERM = false
    ∧ is_getrandom_good OS.android (-1) EPERM = true :=
  ⟨claim_C5_probe_decision.1 OS.linux 0 0 (by decide),
   claim_C5_probe_decision.2.1 OS.android (-1) EAGAIN (by decide) (by decide)
     (by decide),
   claim_C5_probe_decision.2.2.1 OS.linux (-1) (by decide),
   claim_C5_probe_decision.2.2.2.1 (-1) (by decide),
   claim_C5_probe_decision.2.2.2.2 (-1) (by decide)⟩

/-! ## Theorems about backend selection and the lazy caches -/

/-- Claim C6: once the selection cache holds a non-sentinel value,
`getrandom_inner` dispatches directly by that cached value — the probe
does not run, the cache is unchanged, and the call result is exactly
the chosen backend result; in particular an error of the chosen
backend is returned as is, never answered by switching to the other
backend. -/
theorem claim_C6_cached_dispatch :
    (∀ (cache : Nat) (probe : Unit → Bool)
        (fastFill fileFill : Except Error Unit), cache ≠ LazyUsize.UNINIT →
        getrandom_inner cache probe fastFill fileFill
          = ((if cache ≠ 0 then fastFill else fileFill), cache, false))
    ∧ (∀ (cache : Nat) (probe : Unit → Bool)
        (fileFill : Except Error Unit) (e : Error), cache ≠ LazyUsize.UNINIT →
        cache ≠ 0 →
        (getrandom_inner cache probe (Except.error e) fileFill).1
          = Except.error e) := by
  constructor
  · intro cache probe fast file h
    simp [getrandom_inner, LazyBoolWord.unsync_init, LazyUsize.unsync_init, h]
  · intro cache probe file e h h0
    simp [getrandom_inner, LazyBoolWord.unsync_init, LazyUsize.unsync_init, h, h0]

/-- Witness for C6 with the cache resolved to the fast syscall. -/
theorem claim_C6_cached_dispatch_witness :
    getrandom_inner 1 (fun _ => false) (Except.ok ())
        (Except.error Error.UNSUPPORTED)
      = (Except.ok (), 1, false) := by
  have h := claim_C6_cached_dispatch.1 1 (fun _ => false) (Except.ok ())
    (Except.error Error.UNSUPPORTED) (by decide)
  simpa using h

/-- Claim C10: when the `init` closure returns the reserved sentinel,
`LazyUsize::unsync_init` hands that value to the caller but the
unconditional store leaves the cell equal to `UNINIT`, so every
subsequent call runs its closure again; the dlsym-based Linux backend
encodes unavailability as `NOT_AVAILABLE = usize::MAX`, which
coincides with the sentinel, so an unavailable probe outcome is never
cached; the `u8`-based `LazyBool` stores `u8::from(bool)`, which never
equals its `u8::MAX` sentinel, so its closure result is always cached
after one call. -/
theorem claim_C10_sentinel_not_cached :
    (∀ init : Unit → Nat, init () = LazyUsize.UNINIT →
        LazyUsize.unsync_init LazyUsize.UNINIT init
          = (LazyUsize.UNINIT, LazyUsize.UNINIT, true)
        ∧ ∀ init2 : Unit → Nat,
            (LazyUsize.unsync_init
              (LazyUsize.unsync_init LazyUsize.UNINIT init).2.1 init2).2.2 = true)
    ∧ NOT_AVAILABLE = LazyUsize.UNINIT
    ∧ (∀ probeAddr : Unit → Option Nat, probeAddr () = none →
        fill_inner_cache_step LazyUsize.UNINIT probeAddr
          = (NOT_AVAILABLE, LazyUsize.UNINIT, true)
        ∧ (fill_inner_cache_step
            (fill_inner_cache_step LazyUsize.UNINIT probeAddr).2.1
            probeAddr).2.2 = true)
    ∧ (∀ init : Unit → Bool,
        ((if init () then 1 else 0 : Nat) ≠ LazyBool8.UNINIT)
        ∧ (LazyBool8.unsync_init LazyBool8.UNINIT init).2.1 ≠ LazyBool8.UNINIT) := by
  refine ⟨?_, rfl, ?_, ?_⟩
  · intro init h
    constructor
    · simp [LazyUsize.unsync_init, h]
    · intro init2
      simp [LazyUsize.unsync_init, h]
  · intro probeAddr h
    constructor
    · simp [fill_inner_cache_step, LazyUsize.unsync_init, h, NOT_AVAILABLE,
        LazyUsize.UNINIT]
    · simp [fill_inner_cache_step, LazyUsize.unsync_init, h, NOT_AVAILABLE,
        LazyUsize.UNINIT]
  · intro init
    cases hi : init () <;>
      simp [LazyBool8.unsync_init, LazyBool8.UNINIT, U8_MAX, hi]

/-- Witness for C10 with the unavailable probe. -/
theorem claim_C10_sentinel_not_cached_witness :
    fill_inner_cache_step LazyUsize.UNINIT (fun _ => none)
      = (NOT_AVAILABLE, LazyUsize.UNINIT, true) :=
  (claim_C10_sentinel_not_cached.2.2.1 (fun _ => none) rfl).1

/-! ## Theorems about the file-descriptor fallback -/

/-- Once the `FD` cell is resolved, a run of calls leaves it unchanged
and performs no observable event at all. -/
theorem run_get_rng_fd_resolved (envs : List Env) (fd : Int)
    (h : fd ≠ FD_UNINIT) : run_get_rng_fd envs fd = (fd, []) := by
  induction envs with
  | nil => rfl
  | cons env rest ih =>
    simp [run_get_rng_fd, get_rng_fd, get_fd, h, ih]

/-- An event log of two runs concatenates, so `countOpens` adds. -/
theorem countOpens_append (a b : List Ev) :
    countOpens (a ++ b) = countOpens a + countOpens b := by
  simp [countOpens, List.filter_append]

/-- Starting from the unresolved cell, a sequence of calls with
well-formed environments opens `/dev/urandom` successfully at most
once. -/
theorem run_opens_le_one (envs : List Env) (h : ∀ e ∈ envs, EnvValid e) :
    countOpens (run_get_rng_fd envs FD_UNINIT).2 ≤ 1 := by
  induction envs with
  | nil => simp [run_get_rng_fd, countOpens]
  | cons env rest ih =>
    have henv : EnvValid env := h env (List.mem_cons_self env rest)
    have hrest : ∀ e ∈ rest, EnvValid e := fun e he => h e (List.mem_cons_of_mem _ he)
    have huninit : get_fd FD_UNINIT = none := by simp [get_fd]
    cases hp : env.pollResult with
    | error e =>
      simp only [run_get_rng_fd, get_rng_fd, get_fd_locked, huninit, hp]
      simpa [countOpens_append, countOpens] using ih hrest
    | ok u =>
      cases ho : env.openResult with
      | error e =>
        simp only [run_get_rng_fd, get_rng_fd, get_fd_locked, huninit, hp, ho]
        simpa [countOpens_append, countOpens] using ih hrest
      | ok f =>
        have hf : f ≠ FD_UNINIT := henv f ho
        simp only [run_get_rng_fd, get_rng_fd, get_fd_locked, huninit, hp, ho]
        simp [run_get_rng_fd_resolved rest f hf, countOpens_append, countOpens]

/-- The event log of a single call never contains `closeUrandom`. -/
theorem get_rng_fd_no_close (env : Env) (fd : Int) :
    Ev.closeUrandom ∉ (get_rng_fd env fd).2.2 := by
  by_cases h : fd = FD_UNINIT
  · subst h
    have huninit : get_fd FD_UNINIT = none := by simp [get_fd]
    cases hp : env.pollResult with
    | error e => simp [get_rng_fd, get_fd_locked, huninit, hp]
    | ok u =>
      cases ho : env.openResult with
      | error e => simp [get_rng_fd, get_fd_locked, huninit, hp, ho]
      | ok f => simp [get_rng_fd, get_fd_locked, huninit, hp, ho]
  · simp [get_rng_fd, get_fd, h]

/-- Claim C7: across every sequence of `get_rng_fd` calls starting
from the unresolved descriptor cell, `/dev/urandom` is successfully
opened at most once and the cached descriptor is never closed; once
the cell is resolved, every later call returns the same descriptor
with no lock, poll or open; and within a call a `/dev/urandom` open is
attempted only after the readiness poll of `/dev/random` succeeded,
while a poll failure is surfaced with no open attempted. -/
theorem claim_C7_open_once_never_closed :
    (∀ envs : List Env, (∀ e ∈ envs, EnvValid e) →
        countOpens (run_get_rng_fd envs FD_UNINIT).2 ≤ 1)
    ∧ (∀ (envs : List Env) (fd : Int),
        Ev.closeUrandom ∉ (run_get_rng_fd envs fd).2)
    ∧ (∀ (env : Env) (fd : Int), fd ≠ FD_UNINIT →
        get_rng_fd env fd = (Except.ok fd, fd, []))
    ∧ (∀ (env : Env) (e : Error), env.pollResult = Except.error e →
        get_rng_fd env FD_UNINIT
          = (Except.error e, FD_UNINIT, [Ev.lock, Ev.pollRandom]))
    ∧ (∀ (env : Env) (fd : Int) (b : Bool),
        Ev.openUrandom b ∈ (get_rng_fd env fd).2.2 →
        env.pollResult = Except.ok ()) := by
  refine ⟨run_opens_le_one, ?_, ?_, ?_, ?_⟩
  · intro envs fd
    induction envs generalizing fd with
    | nil => simp [run_get_rng_fd]
    | cons env rest ih =>
      simp only [run_get_rng_fd, List.mem_append, not_or]
      exact ⟨get_rng_fd_no_close env fd, ih _⟩
  · intro env fd h
    simp [get_rng_fd, get_fd, h]
  · intro env e hp
    have huninit : get_fd FD_UNINIT = none := by simp [get_fd]
    simp [get_rng_fd, get_fd_locked, huninit, hp]
  · intro env fd b hmem
    by_cases h : fd = FD_UNINIT
    · subst h
      have huninit : get_fd FD_UNINIT = none := by simp [get_fd]
      cases hp : env.pollResult with
      | error e => simp [get_rng_fd, get_fd_locked, huninit, hp] at hmem
      | ok u => cases u; rfl
    · simp [get_rng_fd, get_fd, h] at hmem

/-- Witness for C7: a run of three environments (a poll failure, a
successful open, a later call that hits the cache) opens the device
exactly once. -/
theorem claim_C7_open_once_never_closed_witness :
    countOpens (run_get_rng_fd
      [⟨Except.error Error.UNSUPPORTED, Except.error Error.UNSUPPORTED⟩,
       ⟨Except.ok (), Except.ok 3⟩,
       ⟨Except.ok (), Except.ok 4⟩] FD_UNINIT).2 ≤ 1 :=
  claim_C7_open_once_never_closed.1
    [⟨Except.error Error.UNSUPPORTED, Except.error Error.UNSUPPORTED⟩,
     ⟨Except.ok (), Except.ok 3⟩,
     ⟨Except.ok (), Except.ok 4⟩]
    (by
      intro e he f hf
      simp only [List.mem_cons, List.mem_singleton] at he
      rcases he with rfl | rfl | rfl | h
      · exact absurd hf (by simp)
      · simp only at hf
        cases hf
        decide
      · simp only at hf
        cases hf
        decide
      · cases h)

/-! ## Theorems about the readiness poll loop -/

/-- Counterexample to claim C9 as stated: a poll failure whose errno
is `EAGAIN` — which is not the interrupted condition `EINTR` — does
not stop the loop: the loop retries, and a subsequent successful poll
returns `Ok`, so the `EAGAIN` failure is absorbed rather than
surfaced. -/
theorem claim_C9_counterexample :
    EAGAIN ≠ EINTR
    ∧ wait_until_rng_ready [(-1, EAGAIN), (1, 0)] = some (Except.ok ())
    ∧ wait_until_rng_ready [(-1, EAGAIN), (1, 0)]
        ≠ some (Except.error (last_os_error EAGAIN)) := by
  refine ⟨by decide, rfl, ?_⟩
  intro h
  rw [show wait_until_rng_ready [(-1, EAGAIN), (1, 0)] = some (Except.ok ())
    from rfl] at h
  exact Except.noConfusion (Option.some.inj h)

/-- Claim C9 amended: in the readiness poll loop, exactly the
interrupted condition (`EINTR`) and the try-again condition (`EAGAIN`)
are absorbed and retried internally; for every poll failure whose
errno is neither of the two, the loop stops and surfaces that error
unchanged to the caller. -/
theorem claim_C9_amended_eintr_eagain_absorbed :
    (∀ (res errno : Int) (rest : List (Int × Int)), res < 0 →
        errno = EINTR ∨ errno = EAGAIN →
        wait_until_rng_ready ((res, errno) :: rest) = wait_until_rng_ready rest)
    ∧ (∀ (res errno : Int) (rest : List (Int × Int)), res < 0 →
        errno ≠ EINTR → errno ≠ EAGAIN →
        wait_until_rng_ready ((res, errno) :: rest)
          = some (Except.error (last_os_error errno))) := by
  constructor
  · intro res errno rest hres herrno
    simp only [wait_until_rng_ready, last_os_error_raw_os_error]
    rw [if_neg (by omega : ¬ 0 ≤ res)]
    rcases herrno with rfl | rfl
    · rw [if_pos (by constructor <;> simp [EINTR])]
      simp
    · rw [if_pos (by constructor <;> simp [EAGAIN])]
      simp
  · intro res errno rest hres h4 h11
    simp only [wait_until_rng_ready, last_os_error_raw_os_error]
    rw [if_neg (by omega : ¬ 0 ≤ res)]
    by_cases hc : 0 < errno ∧ errno ≠ 2 ^ 31
    · rw [if_pos hc]
      simp only [EINTR, EAGAIN] at h4 h11
      simp [EINTR, EAGAIN, h4, h11]
    · rw [if_neg hc]

/-- Witness for the amended C9: an interruption and a try-again are
absorbed; an `EPERM` failure is surfaced unchanged. -/
theorem claim_C9_amended_eintr_eagain_absorbed_witness :
    wait_until_rng_ready [(-1, EINTR), (0, 0)] = wait_until_rng_ready [(0, 0)]
    ∧ wait_until_rng_ready [(-1, EAGAIN), (0, 0)] = wait_until_rng_ready [(0, 0)]
    ∧ wait_until_rng_ready [(-1, EPERM)]
        = some (Except.error (last_os_error EPERM)) :=
  ⟨claim_C9_amended_eintr_eagain_absorbed.1 (-1) EINTR [(0, 0)] (by decide)
     (Or.inl rfl),
   claim_C9_amended_eintr_eagain_absorbed.1 (-1) EAGAIN [(0, 0)] (by decide)
     (Or.inr rfl),
   claim_C9_amended_eintr_eagain_absorbed.2 (-1) EPERM [] (by decide) (by decide)
     (by decide)⟩

end Getrandom
